import Mathlib

/-!
Shallow embedding of the token/session gated-content server
(src/server.js, with the duplicated variants in src/unnamed) and proofs
about its token/session lifecycle, catalog projection, sweep and static
file fallback.

Conventions of the embedding:
* JavaScript objects used as maps (tokens, sessions) become association
  lists over String keys; object assignment is key-replacing insertion
  and the delete operator is key erasure.
* The usedTokens Set becomes a list with set-like guarded insertion.
* Date.now() instants are Nat milliseconds and are passed explicitly as
  a parameter to every operation that reads the clock.
* Randomly generated identifiers (crypto.randomBytes) are modelled as
  explicit input parameters chosen by the environment.
* JavaScript truthiness is modelled exactly where the source relies on
  it: a string is truthy iff non-empty (and a missing value is falsy),
  a number is truthy iff non-zero.
-/

/-- TOKEN_DURATION from server.js: one hour in milliseconds. -/
def TOKEN_DURATION : Nat := 60 * 60 * 1000

/-- SESSION_DURATION from server.js: 24 hours in milliseconds. -/
def SESSION_DURATION : Nat := 24 * 60 * 60 * 1000

/-- CLEANUP_INTERVAL from server.js: 30 minutes in milliseconds. -/
def CLEANUP_INTERVAL : Nat := 30 * 60 * 1000

/-- Lookup in an association list, modelling JavaScript property read
on an object used as a map (first matching key wins; object keys are
unique in every reachable state). -/
def lookupKV {α : Type} : List (String × α) → String → Option α
  | [], _ => none
  | (k', v) :: rest, k => if k' = k then some v else lookupKV rest k

/-- Key erasure, modelling the JavaScript delete operator. -/
def eraseKey {α : Type} (l : List (String × α)) (k : String) : List (String × α) :=
  l.filter (fun p => p.1 ≠ k)

/-- Key-replacing insertion, modelling JavaScript assignment obj[k] = v. -/
def insertKV {α : Type} (l : List (String × α)) (k : String) (v : α) : List (String × α) :=
  (k, v) :: eraseKey l k

/-- Membership test on a list of strings, modelling Set.has. -/
def memS : List String → String → Bool
  | [], _ => false
  | x :: xs, t => if x = t then true else memS xs t

/-- Set-like insertion, modelling Set.add. -/
def addS (l : List String) (t : String) : List String :=
  if memS l t then l else t :: l

/-- The keys of an association list. -/
def keysOf {α : Type} (l : List (String × α)) : List String :=
  l.map (fun p => p.1)

/-- The in-memory state of the server process: the three global stores
of server.js (tokens, sessions, usedTokens). -/
structure ServerState where
  tokens : List (String × Nat)
  sessions : List (String × Nat)
  usedTokens : List String
  deriving DecidableEq, Repr

/-- The empty initial state of the process. -/
def initialState : ServerState := ⟨[], [], []⟩

/-- createToken from server.js: records the (randomly chosen) token with
expiry now + TOKEN_DURATION and returns the pair. -/
def createToken (nowT : Nat) (tok : String) (st : ServerState) :
    (String × Nat) × ServerState :=
  ((tok, nowT + TOKEN_DURATION),
   { st with tokens := insertKV st.tokens tok (nowT + TOKEN_DURATION) })

/-- validateToken from server.js on a string argument:
Boolean(t and tokens[t] and now() <= tokens[t] and not usedTokens.has(t)),
with JavaScript truthiness made explicit. -/
def validateTokenI (nowT : Nat) (st : ServerState) (t : String) : Bool :=
  (t != "") &&
    (match lookupKV st.tokens t with
     | some e => (e != 0) && decide (nowT ≤ e)
     | none => false) &&
    !(memS st.usedTokens t)

/-- validateToken from server.js: the request handler may pass null
(token absent or unparseable), modelled as none, which is falsy. -/
def validateToken (nowT : Nat) (st : ServerState) (t : Option String) : Bool :=
  match t with
  | none => false
  | some s => validateTokenI nowT st s

/-- useToken from server.js: usedTokens.add(t); delete tokens[t]. -/
def useToken (st : ServerState) (t : String) : ServerState :=
  { st with usedTokens := addS st.usedTokens t, tokens := eraseKey st.tokens t }

/-- createSession from server.js: records the (randomly chosen) id with
expiry now + SESSION_DURATION and returns the pair. -/
def createSession (nowT : Nat) (sid : String) (st : ServerState) :
    (String × Nat) × ServerState :=
  ((sid, nowT + SESSION_DURATION),
   { st with sessions := insertKV st.sessions sid (nowT + SESSION_DURATION) })

/-- validateSession from server.js on a string argument:
Boolean(id and sessions[id] and now() <= sessions[id]). -/
def validateSessionI (nowT : Nat) (st : ServerState) (s : String) : Bool :=
  (s != "") &&
    (match lookupKV st.sessions s with
     | some e => (e != 0) && decide (nowT ≤ e)
     | none => false)

/-- validateSession from server.js: a missing cookie is modelled as none,
which is falsy. -/
def validateSession (nowT : Nat) (st : ServerState) (s : Option String) : Bool :=
  match s with
  | none => false
  | some sid => validateSessionI nowT st sid

/-- refreshSession from server.js: if the session does not currently
validate, return false and change nothing; otherwise set its expiry to
now + SESSION_DURATION and return true. -/
def refreshSession (nowT : Nat) (st : ServerState) (s : Option String) :
    Bool × ServerState :=
  if validateSession nowT st s then
    match s with
    | some sid =>
        (true, { st with sessions := insertKV st.sessions sid (nowT + SESSION_DURATION) })
    | none => (true, st)
  else (false, st)

/-- The periodic cleanup closure from server.js: delete every token and
session whose expiry is strictly below now, then rebuild usedTokens
keeping only the used tokens still present in the (cleaned) tokens map. -/
def sweepState (nowT : Nat) (st : ServerState) : ServerState :=
  let tokens' := st.tokens.filter (fun p => !(decide (p.2 < nowT)))
  let sessions' := st.sessions.filter (fun p => !(decide (p.2 < nowT)))
  let used' := st.usedTokens.filter (fun x => (lookupKV tokens' x).isSome)
  ⟨tokens', sessions', used'⟩

/-- Outcome of a token redemption, as the /validate-token handler
reports it to the caller. -/
inductive RedeemResult where
  | ok (sid : String) (expiry : Nat)
  | invalidOrExpired
  deriving DecidableEq, Repr

/-- The core of the /validate-token handler from server.js: if
validateToken fails, report the generic invalid-or-expired failure and
change nothing; otherwise consume the token and create a session with
the (randomly chosen) id sid. -/
def redeemToken (nowT : Nat) (sid : String) (st : ServerState)
    (t : Option String) : RedeemResult × ServerState :=
  if validateToken nowT st t then
    match t with
    | some s =>
        let st1 := useToken st s
        let r := createSession nowT sid st1
        (RedeemResult.ok r.1.1 r.1.2, r.2)
    | none => (RedeemResult.invalidOrExpired, st)
  else (RedeemResult.invalidOrExpired, st)

/-- Request body envelope of /validate-token: the first component of
the Content-Type header. -/
inductive CType where
  | json
  | urlencoded
  | other
  deriving DecidableEq, Repr

/-- Responses the /validate-token handler can send. -/
inductive VTResp where
  | redirectInvalid
  | badRequestInvalid
  | redirectIptv (cookieSid : String)
  | okSuccess (expiry : Nat) (cookieSid : String)
  deriving DecidableEq, Repr

/-- The /validate-token handler from server.js, after body parsing has
produced an optional token string: on validation failure a form post is
redirected to /?error=invalid and any other envelope gets the generic
400 invalid-or-expired JSON body; on success the token is consumed, a
session is created under the randomly chosen id newSid, its cookie is
set, and a form post is redirected to /iptv while other envelopes get
the 200 success JSON body. -/
def validateTokenHandler (ct : CType) (nowT : Nat) (newSid : String)
    (st : ServerState) (tok : Option String) : VTResp × ServerState :=
  if validateToken nowT st tok then
    match tok with
    | some s =>
        let st1 := useToken st s
        let r := createSession nowT newSid st1
        match ct with
        | CType.urlencoded => (VTResp.redirectIptv r.1.1, r.2)
        | _ => (VTResp.okSuccess r.1.2 r.1.1, r.2)
    | none => (VTResp.badRequestInvalid, st)
  else
    match ct with
    | CType.urlencoded => (VTResp.redirectInvalid, st)
    | _ => (VTResp.badRequestInvalid, st)

/-- Responses of the /check-session handler. -/
inductive CheckResp where
  | unauthorized
  | okExpiry (expiry : Nat)
  deriving DecidableEq, Repr

/-- The /check-session handler from server.js: 401 unless the cookie
session validates, otherwise 200 with the recorded expiry; it only
reads the stores. -/
def checkSessionHandler (nowT : Nat) (st : ServerState) (sid : Option String) :
    CheckResp × ServerState :=
  if validateSession nowT st sid then
    (match sid with
     | some s =>
         match lookupKV st.sessions s with
         | some e => CheckResp.okExpiry e
         | none => CheckResp.unauthorized
     | none => CheckResp.unauthorized, st)
  else (CheckResp.unauthorized, st)

/-- The four public catalog fields kept by the /channels projection. -/
def allowedFields : List String := ["name", "logo", "manifestUri", "category"]

/-- A backing catalog record: a JSON object, modelled as its fields. -/
def ChannelRecord : Type := List (String × String)

/-- The projection inside the /channels handler of server.js: object
destructuring on name, logo, manifestUri, category followed by literal
rebuilding, so the output carries exactly these four keys and a missing
input field surfaces as an undefined (none) value. -/
def projectChannel (ch : ChannelRecord) : List (String × Option String) :=
  allowedFields.map (fun f => (f, lookupKV ch f))

/-- Responses of the /channels handler (after the session check). -/
inductive ChannelsResp where
  | unauthorized
  | okChannels (channels : List (List (String × Option String)))
  | fileError
  deriving DecidableEq, Repr

/-- The /channels handler from server.js. The backing file is modelled
as none when data/channels.json does not exist, some (Except.error ())
when reading or JSON parsing throws, and some (Except.ok records)
otherwise. A missing file yields 200 success with an empty list; a
read or parse failure yields the 500 channels-file error. -/
def channelsHandler (nowT : Nat) (st : ServerState) (sid : Option String)
    (catalog : Option (Except Unit (List ChannelRecord))) : ChannelsResp :=
  if validateSession nowT st sid then
    match catalog with
    | none => ChannelsResp.okChannels []
    | some (Except.error _) => ChannelsResp.fileError
    | some (Except.ok parsed) => ChannelsResp.okChannels (parsed.map projectChannel)
  else ChannelsResp.unauthorized

/-- WHATWG URL path normalization as performed by new URL(req.url, base)
on the path segments: a single-dot segment is dropped and a double-dot
segment removes the preceding segment (a pop at the root is a no-op).
The accumulator holds the segments already emitted. -/
def removeDotSegs : List String → List String → List String
  | acc, [] => acc
  | acc, s :: rest =>
      if s = "." then removeDotSegs acc rest
      else if s = ".." then removeDotSegs acc.dropLast rest
      else removeDotSegs (acc ++ [s]) rest

/-- The pathname of new URL(req.url, base) for an origin-form request
target, as a segment list (empty segments from duplicate slashes are
kept, dot segments are resolved away). -/
def urlNormalize (segs : List String) : List String :=
  removeDotSegs [] segs

/-- Node path.join(base, extra) for an absolute base, at segment level:
empty and single-dot segments of extra are dropped, a double-dot pops
the last segment (staying at the filesystem root when already there),
anything else is appended. -/
def joinSegs : List String → List String → List String
  | base, [] => base
  | base, s :: rest =>
      if s = "" ∨ s = "." then joinSegs base rest
      else if s = ".." then joinSegs base.dropLast rest
      else joinSegs (base ++ [s]) rest

/-- Rendering of an absolute segment path back to the string form the
source compares with String.startsWith. -/
def renderPath (segs : List String) : String :=
  "/" ++ String.intercalate "/" segs

/-- PUBLIC_DIR of server.js (path.join(__dirname, "public")), as an
absolute segment path; the concrete install prefix is irrelevant to
every property proved about it. -/
def publicDirSegs : List String := ["srv", "iptv", "public"]

/-- The filesystem visible to the static fallback: the set of absolute
paths (as segment lists) at which a regular file exists. -/
structure FileSys where
  files : List (List String)
  deriving DecidableEq, Repr

/-- Responses of the static-file fallback. -/
inductive StaticResp where
  | file (p : List String)
  | notFound
  deriving DecidableEq, Repr

/-- The GET static-file fallback of server.js (the branch after every
named route): the request target is parsed by new URL (which resolves
dot segments), leading slashes are stripped from the pathname, an
empty remainder is 404, the remainder is joined onto PUBLIC_DIR with
path.join, and the candidate is served only when its string form
starts with PUBLIC_DIR and a regular file exists there; everything
else falls through to 404. -/
def staticFallback (fsys : FileSys) (reqSegs : List String) : StaticResp :=
  if (urlNormalize reqSegs).dropWhile (fun s => s == "") = [] then StaticResp.notFound
  else if String.isPrefixOf (renderPath publicDirSegs)
          (renderPath (joinSegs publicDirSegs
            ((urlNormalize reqSegs).dropWhile (fun s => s == ""))))
        ∧ joinSegs publicDirSegs
            ((urlNormalize reqSegs).dropWhile (fun s => s == "")) ∈ fsys.files
  then StaticResp.file (joinSegs publicDirSegs
        ((urlNormalize reqSegs).dropWhile (fun s => s == "")))
  else StaticResp.notFound

/-- One observable server operation: a request reaching one of the
store-touching handlers, or one firing of the cleanup timer. Each
carries the Date.now() instant at which it runs and, where the source
draws randomness, the drawn identifier. -/
inductive Op where
  | genTok (tok : String) (t : Nat)
  | redeem (tok : Option String) (sid : String) (t : Nat)
  | checkSess (sid : Option String) (t : Nat)
  | refreshSess (sid : Option String) (t : Nat)
  | sweep (t : Nat)
  deriving DecidableEq, Repr

/-- State transition of a single operation (responses discarded). -/
def applyOp (st : ServerState) (o : Op) : ServerState :=
  match o with
  | Op.genTok tok t => (createToken t tok st).2
  | Op.redeem tok sid t => (redeemToken t sid st tok).2
  | Op.checkSess sid t => (checkSessionHandler t st sid).2
  | Op.refreshSess sid t => (refreshSession t st sid).2
  | Op.sweep t => sweepState t st

/-- The token value an operation inserts into the tokens store, when it
is a token issuance. -/
def Op.newTokenOf : Op → Option String
  | Op.genTok tok _ => some tok
  | _ => none

/-- All expiries recorded in a store are positive; every state the
server can reach satisfies this for both stores, since every insertion
adds a positive duration to the current instant. -/
def posExpiries (l : List (String × Nat)) : Prop :=
  ∀ p ∈ l, 0 < p.2

instance (l : List (String × Nat)) : Decidable (posExpiries l) := by
  unfold posExpiries
  exact List.decidableBAll _ l

-- Basic lemmas about the association list primitives.

theorem lookupKV_insert_self {α : Type} (l : List (String × α)) (k : String) (v : α) :
    lookupKV (insertKV l k v) k = some v := by
  simp [insertKV, lookupKV]

theorem lookupKV_erase_self {α : Type} (l : List (String × α)) (k : String) :
    lookupKV (eraseKey l k) k = none := by
  induction l with
  | nil => rfl
  | cons p rest ih =>
      by_cases h : p.1 = k
      · simpa [eraseKey, h] using ih
      · simpa [eraseKey, lookupKV, h] using ih

theorem lookupKV_erase_ne {α : Type} (l : List (String × α)) (k k' : String)
    (h : k ≠ k') : lookupKV (eraseKey l k) k' = lookupKV l k' := by
  induction l with
  | nil => rfl
  | cons p rest ih =>
      obtain ⟨a, v⟩ := p
      by_cases hp : a = k
      · have hne : a ≠ k' := by rw [hp]; exact h
        calc lookupKV (eraseKey ((a, v) :: rest) k) k'
            = lookupKV (eraseKey rest k) k' := by
              simp [eraseKey, List.filter_cons, hp]
          _ = lookupKV rest k' := ih
          _ = lookupKV ((a, v) :: rest) k' := by simp [lookupKV, hne]
      · by_cases hp' : a = k'
        · have hk : k' ≠ k := fun he => h he.symm
          simp [eraseKey, List.filter_cons, hp, lookupKV, hp', hk]
        · calc lookupKV (eraseKey ((a, v) :: rest) k) k'
              = lookupKV (eraseKey rest k) k' := by
                simp [eraseKey, List.filter_cons, hp, lookupKV, hp']
            _ = lookupKV rest k' := ih
            _ = lookupKV ((a, v) :: rest) k' := by simp [lookupKV, hp']

theorem lookupKV_insert_ne {α : Type} (l : List (String × α)) (k k' : String) (v : α)
    (h : k ≠ k') : lookupKV (insertKV l k v) k' = lookupKV l k' := by
  simp [insertKV, lookupKV, h]
  exact lookupKV_erase_ne l k k' h

theorem lookupKV_filter_none {α : Type} (l : List (String × α)) (p : String × α → Bool)
    (k : String) (h : lookupKV l k = none) : lookupKV (l.filter p) k = none := by
  induction l with
  | nil => rfl
  | cons q rest ih =>
      by_cases hq : q.1 = k
      · simp [lookupKV, hq] at h
      · simp [lookupKV, hq] at h
        by_cases hp : p q
        · simp [List.filter, hp, lookupKV, hq]
          exact ih h
        · simp [List.filter, hp]
          exact ih h

theorem memS_iff (l : List String) (t : String) : memS l t = true ↔ t ∈ l := by
  induction l with
  | nil => simp [memS]
  | cons x xs ih =>
      by_cases h : x = t
      · simp [memS, h]
      · simp [memS, h, ih]
        intro he
        exact absurd he.symm h

theorem mem_addS (l : List String) (t : String) : t ∈ addS l t := by
  by_cases h : memS l t
  · simpa [addS, h] using (memS_iff l t).mp h
  · simp [addS, h]

theorem validateTokenI_none (nowT : Nat) (st : ServerState) (t : String)
    (h : lookupKV st.tokens t = none) : validateTokenI nowT st t = false := by
  simp [validateTokenI, h]

theorem checkSessionHandler_state (nowT : Nat) (st : ServerState) (sid : Option String) :
    (checkSessionHandler nowT st sid).2 = st := by
  unfold checkSessionHandler
  split <;> rfl

theorem refreshSession_tokens (nowT : Nat) (st : ServerState) (s : Option String) :
    (refreshSession nowT st s).2.tokens = st.tokens := by
  unfold refreshSession
  split
  · cases s <;> rfl
  · rfl

theorem tokens_none_applyOp (st : ServerState) (o : Op) (t : String)
    (h : lookupKV st.tokens t = none) (hno : o.newTokenOf ≠ some t) :
    lookupKV (applyOp st o).tokens t = none := by
  cases o with
  | genTok tok t' =>
      have htok : tok ≠ t := fun he => hno (by simp [Op.newTokenOf, he])
      simpa [applyOp, createToken, lookupKV_insert_ne _ _ _ _ htok] using h
  | redeem tok sid t' =>
      cases tok with
      | none => simpa [applyOp, redeemToken, validateToken] using h
      | some s =>
          by_cases hv : validateToken t' st (some s) = true
          · by_cases hs : s = t
            · subst hs
              simp [applyOp, redeemToken, hv, createSession, useToken,
                lookupKV_erase_self]
            · simpa [applyOp, redeemToken, hv, createSession, useToken,
                lookupKV_erase_ne _ _ _ hs] using h
          · simpa [applyOp, redeemToken, hv] using h
  | checkSess sid t' => simpa [applyOp, checkSessionHandler_state] using h
  | refreshSess sid t' => simpa [applyOp, refreshSession_tokens] using h
  | sweep t' =>
      simpa [applyOp, sweepState] using
        lookupKV_filter_none st.tokens (fun p => !(decide (p.2 < t'))) t h

theorem tokens_none_foldl (ops : List Op) (st : ServerState) (t : String)
    (h : lookupKV st.tokens t = none)
    (hno : ∀ o ∈ ops, o.newTokenOf ≠ some t) :
    lookupKV (ops.foldl applyOp st).tokens t = none := by
  induction ops generalizing st with
  | nil => exact h
  | cons o rest ih =>
      simp only [List.foldl_cons]
      exact ih (applyOp st o)
        (tokens_none_applyOp st o t h (hno o (by simp)))
        (fun o' ho' => hno o' (by simp [ho']))

theorem posExpiries_lookup (l : List (String × Nat)) (s : String) (e : Nat)
    (hp : posExpiries l) (hl : lookupKV l s = some e) : 0 < e := by
  induction l with
  | nil => simp [lookupKV] at hl
  | cons p rest ih =>
      by_cases h : p.1 = s
      · simp [lookupKV, h] at hl
        exact hl ▸ hp p (by simp)
      · simp [lookupKV, h] at hl
        exact ih (fun q hq => hp q (by simp [hq])) hl

theorem posExpiries_insert (l : List (String × Nat)) (k : String) (v : Nat)
    (hp : posExpiries l) (hv : 0 < v) : posExpiries (insertKV l k v) := by
  intro q hq
  rcases List.mem_cons.mp hq with h | h
  · rw [h]; exact hv
  · exact hp q (List.mem_filter.mp h).1

theorem posExpiries_filter (l : List (String × Nat)) (p : String × Nat → Bool)
    (hp : posExpiries l) : posExpiries (l.filter p) :=
  fun q hq => hp q (List.mem_filter.mp hq).1

theorem posExpiries_sessions_applyOp (st : ServerState) (o : Op)
    (hp : posExpiries st.sessions) : posExpiries (applyOp st o).sessions := by
  cases o with
  | genTok tok t' => simpa [applyOp, createToken] using hp
  | redeem tok sid t' =>
      cases tok with
      | none => simpa [applyOp, redeemToken, validateToken] using hp
      | some s =>
          by_cases hv : validateToken t' st (some s) = true
          · simp only [applyOp, redeemToken, hv, if_true]
            exact posExpiries_insert _ _ _ hp (by simp [SESSION_DURATION])
          · simpa [applyOp, redeemToken, hv] using hp
  | checkSess sid t' => simpa [applyOp, checkSessionHandler_state] using hp
  | refreshSess sid t' =>
      simp only [applyOp]
      unfold refreshSession
      split
      · cases sid with
        | none => exact hp
        | some s =>
            exact posExpiries_insert _ _ _ hp (by simp [SESSION_DURATION])
      · exact hp
  | sweep t' => exact posExpiries_filter _ _ hp

theorem removeDotSegs_clean (l acc : List String)
    (hacc : ∀ x ∈ acc, x ≠ "." ∧ x ≠ "..") :
    ∀ x ∈ removeDotSegs acc l, x ≠ "." ∧ x ≠ ".." := by
  induction l generalizing acc with
  | nil => simpa [removeDotSegs] using hacc
  | cons s rest ih =>
      by_cases h1 : s = "."
      · simpa [removeDotSegs, h1] using ih acc hacc
      · by_cases h2 : s = ".."
        · simp only [removeDotSegs, h1, h2, if_true, if_false]
          exact ih _ (fun x hx => hacc x ((List.dropLast_sublist acc).subset hx))
        · simp only [removeDotSegs, h1, h2, if_false]
          refine ih _ (fun x hx => ?_)
          rcases List.mem_append.mp hx with h | h
          · exact hacc x h
          · simp at h
            rw [h]
            exact ⟨h1, h2⟩

theorem joinSegs_append (extra base : List String)
    (h : ∀ s ∈ extra, s ≠ "..") :
    joinSegs base extra = base ++ extra.filter (fun s => !(s == "" || s == ".")) := by
  induction extra generalizing base with
  | nil => simp [joinSegs]
  | cons s rest ih =>
      by_cases h1 : s = "" ∨ s = "."
      · have hf : (!(s == "" || s == ".")) = false := by
          rcases h1 with h1 | h1 <;> simp [h1]
        simp only [joinSegs, h1, if_true, List.filter_cons, hf, if_false]
        exact ih base (fun x hx => h x (by simp [hx]))
      · have h2 : s ≠ ".." := h s (by simp)
        have hf : (!(s == "" || s == ".")) = true := by
          push_neg at h1
          simp [h1.1, h1.2]
        simp only [joinSegs, h1, h2, if_false, List.filter_cons, hf, if_true]
        rw [ih (base ++ [s]) (fun x hx => h x (by simp [hx]))]
        simp

/-- C1: once a redemption of token t succeeds, every later redemption of
the same token value t fails with the invalid-or-expired error and
creates no session, across any interleaving of other requests and
sweeps, provided the random generator does not re-issue the very same
token value. Consumption deletes t from the tokens store and no
subsequent operation but a re-issuance can put it back. -/
theorem redeem_at_most_once (st : ServerState) (t : String) (n1 n2 : Nat)
    (sid1 sid2 : String) (ops : List Op)
    (hval : validateToken n1 st (some t) = true)
    (hfresh : ∀ o ∈ ops, o.newTokenOf ≠ some t) :
    (redeemToken n2 sid2 (ops.foldl applyOp (redeemToken n1 sid1 st (some t)).2)
        (some t)).1 = RedeemResult.invalidOrExpired ∧
    (redeemToken n2 sid2 (ops.foldl applyOp (redeemToken n1 sid1 st (some t)).2)
        (some t)).2 = ops.foldl applyOp (redeemToken n1 sid1 st (some t)).2 := by
  have h1 : lookupKV (redeemToken n1 sid1 st (some t)).2.tokens t = none := by
    simp [redeemToken, hval, useToken, createSession, lookupKV_erase_self]
  set S := ops.foldl applyOp (redeemToken n1 sid1 st (some t)).2
  have h2 : lookupKV S.tokens t = none := tokens_none_foldl ops _ t h1 hfresh
  have h3 : validateToken n2 S (some t) = false := validateTokenI_none n2 _ t h2
  constructor <;> simp [redeemToken, h3]

/-- Witness for C1: a concrete token issued at time 0 is redeemed at
time 5; after a sweep, a refresh and an unrelated issuance, redeeming
the same value at time 40 fails with the generic error. -/
theorem redeem_at_most_once_witness :
    validateToken 5 ⟨[("t1", 3600000)], [], []⟩ (some "t1") = true ∧
    (redeemToken 40 "s2" (List.foldl applyOp
        (redeemToken 5 "s1" ⟨[("t1", 3600000)], [], []⟩ (some "t1")).2
        [Op.sweep 6, Op.refreshSess (some "s1") 7, Op.genTok "t2" 8]) (some "t1")).1
      = RedeemResult.invalidOrExpired :=
  ⟨by decide,
   (redeem_at_most_once ⟨[("t1", 3600000)], [], []⟩ "t1" 5 40 "s1" "s2"
      [Op.sweep 6, Op.refreshSess (some "s1") 7, Op.genTok "t2" 8]
      (by decide) (by decide)).1⟩

/-- Counterexample to C2 as stated: the claim says validateSession
returns false at the recorded expiry instant, but at now equal to the
recorded expiry the source comparison now <= sessions[id] holds, so
validateSession returns true. -/
theorem validateSession_true_at_expiry_instant :
    lookupKV (ServerState.mk [] [("a", 100)] []).sessions "a" = some 100 ∧
    validateSession 100 (ServerState.mk [] [("a", 100)] []) (some "a") = true := by
  decide

/-- C2 amended: validateSession returns true iff the id is non-empty,
present in the session store, and its recorded expiry is at least now;
so it is true up to and including the recorded expiry instant and
false strictly after it. The positivity hypothesis on stored expiries
holds in every reachable state, since each insertion records a current
instant plus a positive duration. -/
theorem validateSession_iff_amended (nowT : Nat) (st : ServerState) (s : String)
    (hpos : posExpiries st.sessions) :
    validateSession nowT st (some s) = true ↔
      s ≠ "" ∧ ∃ e, lookupKV st.sessions s = some e ∧ nowT ≤ e := by
  unfold validateSession validateSessionI
  cases hl : lookupKV st.sessions s with
  | none => simp [hl]
  | some e =>
      have hp := posExpiries_lookup st.sessions s e hpos hl
      have he : (e != 0) = true := by simp; omega
      simp [hl, he, bne_iff_ne, and_assoc]

/-- Witness for C2 amended at a concrete store and instant. -/
theorem validateSession_iff_amended_witness :
    posExpiries (ServerState.mk [] [("b", 50)] []).sessions ∧
    (validateSession 20 (ServerState.mk [] [("b", 50)] []) (some "b") = true ↔
      "b" ≠ "" ∧ ∃ e, lookupKV (ServerState.mk [] [("b", 50)] []).sessions "b" = some e ∧
        20 ≤ e) :=
  ⟨by decide, validateSession_iff_amended 20 (ServerState.mk [] [("b", 50)] []) "b"
    (by decide)⟩

/-- Counterexample to C3 as stated: refreshing a valid session whose
recorded expiry is now + sessionDuration already (a session created at
the same instant) returns true but leaves the recorded expiry
unchanged, so the expiry neither strictly increases nor becomes old
expiry plus the session duration. -/
theorem refreshSession_no_strict_increase :
    (refreshSession 0 (ServerState.mk [] [("a", 86400000)] []) (some "a")).1 = true ∧
    lookupKV (refreshSession 0 (ServerState.mk [] [("a", 86400000)] [])
        (some "a")).2.sessions "a"
      = lookupKV (ServerState.mk [] [("a", 86400000)] []).sessions "a" := by
  decide

/-- C3 amended: refreshSession on a currently valid session returns
true and slides its recorded expiry to now + sessionDuration (not to
old expiry + sessionDuration; the change is a strict increase only
when that value exceeds the old expiry), leaving every other session
and the other stores untouched. -/
theorem refreshSession_valid_behavior (nowT : Nat) (st : ServerState) (s : String)
    (hval : validateSession nowT st (some s) = true) :
    (refreshSession nowT st (some s)).1 = true ∧
    lookupKV (refreshSession nowT st (some s)).2.sessions s
      = some (nowT + SESSION_DURATION) ∧
    (∀ s', s' ≠ s →
      lookupKV (refreshSession nowT st (some s)).2.sessions s'
        = lookupKV st.sessions s') ∧
    (refreshSession nowT st (some s)).2.tokens = st.tokens ∧
    (refreshSession nowT st (some s)).2.usedTokens = st.usedTokens := by
  refine ⟨?_, ?_, ?_, ?_, ?_⟩ <;>
    simp [refreshSession, hval, lookupKV_insert_self]
  intro s' hs'
  exact lookupKV_insert_ne _ _ _ _ (fun he => hs' he.symm)

/-- Witness for C3 amended at a concrete valid session. -/
theorem refreshSession_valid_behavior_witness :
    validateSession 10 (ServerState.mk [] [("c", 40)] []) (some "c") = true ∧
    lookupKV (refreshSession 10 (ServerState.mk [] [("c", 40)] [])
        (some "c")).2.sessions "c" = some (10 + SESSION_DURATION) :=
  ⟨by decide,
   (refreshSession_valid_behavior 10 (ServerState.mk [] [("c", 40)] []) "c"
      (by decide)).2.1⟩

/-- C5: one sweep run at time now keeps exactly the token and session
entries whose recorded expiry is at least now; an entry is removed iff
its expiry is strictly below now, and no not-yet-expired entry is ever
removed. -/
theorem sweep_removes_exactly_expired (nowT : Nat) (st : ServerState)
    (k : String) (e : Nat) :
    ((k, e) ∈ (sweepState nowT st).tokens ↔ (k, e) ∈ st.tokens ∧ nowT ≤ e) ∧
    ((k, e) ∈ (sweepState nowT st).sessions ↔ (k, e) ∈ st.sessions ∧ nowT ≤ e) := by
  constructor <;> simp [sweepState, List.mem_filter, Nat.not_lt]

/-- C7: when token validation fails, the response depends only on the
request envelope, not on which check failed: a missing token, an
unknown token, an expired token and an already consumed token all
produce the identical response for the same content type. -/
theorem redeem_failure_uniform (ct : CType) (n n' : Nat) (sid sid' : String)
    (st st' : ServerState) (tok tok' : Option String)
    (h : validateToken n st tok = false) (h' : validateToken n' st' tok' = false) :
    (validateTokenHandler ct n sid st tok).1
      = (validateTokenHandler ct n' sid' st' tok').1 := by
  cases ct <;> simp [validateTokenHandler, h, h']

/-- Witness for C7: an expired token and a missing token produce the
same JSON failure response. -/
theorem redeem_failure_uniform_witness :
    validateToken 10 (ServerState.mk [("t9", 5)] [] []) (some "t9") = false ∧
    validateToken 10 (ServerState.mk [("t9", 5)] [] []) none = false ∧
    (validateTokenHandler CType.json 10 "s9" (ServerState.mk [("t9", 5)] [] [])
        (some "t9")).1
      = (validateTokenHandler CType.json 10 "s9" (ServerState.mk [("t9", 5)] [] [])
        none).1 :=
  ⟨by decide, by decide,
   redeem_failure_uniform CType.json 10 10 "s9" "s9"
     (ServerState.mk [("t9", 5)] [] []) (ServerState.mk [("t9", 5)] [] [])
     (some "t9") none (by decide) (by decide)⟩

/-- C4: every channel object returned by the authenticated /channels
handler carries no field outside name, logo, manifestUri, category,
whatever extra fields (such as DRM key material) the backing record
holds: the projection is a strict allow-list. -/
theorem channels_projection_allowlist (nowT : Nat) (st : ServerState)
    (sid : Option String) (catalog : Option (Except Unit (List ChannelRecord)))
    (chans : List (List (String × Option String)))
    (ch : List (String × Option String)) (f : String) (v : Option String)
    (hresp : channelsHandler nowT st sid catalog = ChannelsResp.okChannels chans)
    (hch : ch ∈ chans) (hf : (f, v) ∈ ch) : f ∈ allowedFields := by
  by_cases hv : validateSession nowT st sid = true
  · cases catalog with
    | none =>
        simp [channelsHandler, hv] at hresp
        subst hresp
        simp at hch
    | some ex =>
        cases ex with
        | error u => simp [channelsHandler, hv] at hresp
        | ok parsed =>
            simp [channelsHandler, hv] at hresp
            subst hresp
            rcases List.mem_map.mp hch with ⟨r, hr, hpr⟩
            rw [← hpr] at hf
            rcases List.mem_map.mp hf with ⟨f', hf', heq⟩
            injection heq with heq1 heq2
            rw [← heq1]
            exact hf'
  · simp [channelsHandler, hv] at hresp

/-- Witness for C4: a backing record carrying a clearKey secret is
projected to exactly the four public fields. -/
theorem channels_projection_allowlist_witness :
    channelsHandler 0 (ServerState.mk [] [("d", 9)] []) (some "d")
        (some (Except.ok [[("name", "CNN"), ("clearKey", "SECRET")]]))
      = ChannelsResp.okChannels [[("name", some "CNN"), ("logo", none),
          ("manifestUri", none), ("category", none)]] ∧
    "name" ∈ allowedFields :=
  ⟨by decide,
   channels_projection_allowlist 0 (ServerState.mk [] [("d", 9)] []) (some "d")
     (some (Except.ok [[("name", "CNN"), ("clearKey", "SECRET")]]))
     [[("name", some "CNN"), ("logo", none), ("manifestUri", none), ("category", none)]]
     [("name", some "CNN"), ("logo", none), ("manifestUri", none), ("category", none)]
     "name" (some "CNN") (by decide) (by decide) (by decide)⟩

/-- C6: the GET static-file fallback only ever answers 404 or serves a
file whose resolved path extends the public directory: the WHATWG URL
parser has already resolved every dot segment of the request target,
so the remainder joined onto PUBLIC_DIR can never climb out of it, and
any request that does not land on an existing file inside the public
directory falls through to 404. -/
theorem static_fallback_only_public (fsys : FileSys) (reqSegs : List String) :
    staticFallback fsys reqSegs = StaticResp.notFound ∨
    ∃ tl, staticFallback fsys reqSegs = StaticResp.file (publicDirSegs ++ tl) := by
  unfold staticFallback
  by_cases h0 : (urlNormalize reqSegs).dropWhile (fun s => s == "") = []
  · left
    rw [if_pos h0]
  · rw [if_neg h0]
    have hclean : ∀ x ∈ (urlNormalize reqSegs).dropWhile (fun s => s == ""),
        x ≠ "." ∧ x ≠ ".." := fun x hx =>
      removeDotSegs_clean reqSegs [] (by simp) x
        ((List.dropWhile_sublist _).subset hx)
    have hjoin := joinSegs_append
      ((urlNormalize reqSegs).dropWhile (fun s => s == "")) publicDirSegs
      (fun s hs => (hclean s hs).2)
    by_cases hc :
        String.isPrefixOf (renderPath publicDirSegs)
            (renderPath (joinSegs publicDirSegs
              ((urlNormalize reqSegs).dropWhile (fun s => s == "")))) = true
          ∧ joinSegs publicDirSegs
              ((urlNormalize reqSegs).dropWhile (fun s => s == "")) ∈ fsys.files
    · right
      refine ⟨((urlNormalize reqSegs).dropWhile (fun s => s == "")).filter
        (fun s => !(s == "" || s == ".")), ?_⟩
      rw [if_pos hc, hjoin]
    · left
      rw [if_neg hc]


/-- Counterexample to C8 as stated: with a validating session and the
backing catalog file missing, the /channels handler reports success
with an empty channel list (HTTP 200), not a NotFound error. -/
theorem channels_missing_file_success :
    channelsHandler 0 (ServerState.mk [] [("e", 7)] []) (some "e") none
      = ChannelsResp.okChannels [] := by
  decide

/-- C8 amended: when the session validates and the backing catalog file
is missing, the /channels handler reports success with an empty
channel list, deliberately treating the absent file as an empty
catalog rather than as a NotFound failure. -/
theorem channels_missing_file_empty_ok (nowT : Nat) (st : ServerState)
    (sid : Option String) (hval : validateSession nowT st sid = true) :
    channelsHandler nowT st sid none = ChannelsResp.okChannels [] := by
  simp [channelsHandler, hval]

/-- Witness for C8 amended at a concrete validating session. -/
theorem channels_missing_file_empty_ok_witness :
    validateSession 3 (ServerState.mk [] [("g", 8)] []) (some "g") = true ∧
    channelsHandler 3 (ServerState.mk [] [("g", 8)] []) (some "g") none
      = ChannelsResp.okChannels [] :=
  ⟨by decide,
   channels_missing_file_empty_ok 3 (ServerState.mk [] [("g", 8)] []) (some "g")
     (by decide)⟩

/-- C9: the session-validation path is read-only: the /check-session
handler (and the checkSess operation built on validateSession) returns
the state it was given, so no token entry, session entry or recorded
expiry is created, extended or deleted by it. -/
theorem check_session_no_mutation (nowT : Nat) (st : ServerState)
    (sid : Option String) :
    (checkSessionHandler nowT st sid).2 = st ∧
    applyOp st (Op.checkSess sid nowT) = st := by
  refine ⟨checkSessionHandler_state nowT st sid, ?_⟩
  simp [applyOp, checkSessionHandler_state]

/-- C10: consuming a token deletes it from the tokens map besides
recording it in usedTokens, so validateToken stays false forever after
consumption; the sweep filter then drops every consumed token (absent
from the tokens map) from usedTokens, and validateToken still stays
false afterwards, so one-time use rests on the deletion from the
tokens map rather than on usedTokens persisting. -/
theorem useToken_one_time_enforcement (st : ServerState) (t : String) :
    lookupKV (useToken st t).tokens t = none ∧
    t ∈ (useToken st t).usedTokens ∧
    (∀ n : Nat, validateTokenI n (useToken st t) t = false) ∧
    (∀ n : Nat, t ∉ (sweepState n (useToken st t)).usedTokens) ∧
    (∀ n n' : Nat, validateTokenI n' (sweepState n (useToken st t)) t = false) := by
  have h1 : lookupKV (useToken st t).tokens t = none := by
    simp [useToken, lookupKV_erase_self]
  refine ⟨h1, mem_addS _ _, fun n => validateTokenI_none n _ t h1, ?_, ?_⟩
  · intro n hmem
    simp only [sweepState] at hmem
    have h2 := (List.mem_filter.mp hmem).2
    rw [lookupKV_filter_none _ _ _ h1] at h2
    simp at h2
  · intro n n'
    apply validateTokenI_none
    simp only [sweepState]
    exact lookupKV_filter_none _ _ _ h1
